import Mathlib

/-! # Verification of the sales-data cleaning and filter/sort pipeline

Shallow embedding of the core logic of src/process_sales_data.py
(functions clean_data, lines 207-253, and filter_and_sort_data, lines
256-281; src/sales_data_processing_jupyter.py duplicates the same logic
verbatim at lines 46-97).

Modelling choices:
* A pandas DataFrame is a Table: a list of column names together with a
  list of rows; each row is an association list from column name to cell.
* A cell is missing (pandas NaN), a number (the float64 values of
  Units_Sold and Revenue, modelled as rationals), or a text value.
* Series.mean() skips missing values; on a column with no present value
  it returns NaN, modelled as none.
* Series.fillna(v) replaces exactly the missing cells of the column.
  fillna(NaN), which happens when the mean is undefined, fills nothing;
  it is modelled by filling with Cell.missing, which is the identity.
* The boolean indexing df[df[c] > x] keeps, in order, the rows whose
  c-cell is a number strictly greater than x; a missing cell compares
  false, so such rows are dropped.
* Column access df[c] on a frame without column c raises KeyError;
  filter_and_sort_data returns none in that case and some table
  otherwise.
* sort_values(c, ascending=False) is modelled as a stable descending
  sort on the Revenue key (List.insertionSort).  The script passes no
  kind argument, so pandas actually uses numpy quicksort, whose order
  among tied keys is not guaranteed; the stable model is exact for the
  documented key order of the result, for tie-free tables, and for
  tables small enough to hit numpy's insertion-sort leaf.  The one
  claim that depends on the tie order (C5) is settled outside the
  model.
-/

namespace Sales

/-- A cell value: the missing marker (NaN), a number, or a text value. -/
inductive Cell where
  | missing : Cell
  | num : ℚ → Cell
  | str : String → Cell
deriving DecidableEq

/-- A row: an association list from column name to cell value. -/
abbrev Row := List (String × Cell)

/-- A DataFrame: its column names and its rows, in order. -/
@[ext]
structure Table where
  cols : List String
  rows : List Row
deriving DecidableEq

/-- The value of column c in row r: the first entry with key c (pandas
column lookup; columns are unique in a well-formed frame). -/
def getCell : Row → String → Option Cell
  | [], _ => none
  | (k, v) :: r, c => if k = c then some v else getCell r c

/-- Row r has a cell for column c and it is the missing marker
(pandas isnull on one cell). -/
def isMissingAt (c : String) (r : Row) : Bool :=
  match getCell r c with
  | some Cell.missing => true
  | _ => false

/-- Replace a missing c-cell by v (Series.fillna restricted to one
row).  A row whose c-cell is present is unchanged. -/
def fillCell (c : String) (v : Cell) : Row → Row
  | [] => []
  | (k, w) :: r =>
    if k = c then (if w = Cell.missing then (k, v) :: r else (k, w) :: r)
    else (k, w) :: fillCell c v r

/-- Number of rows whose c-cell is missing (isnull().sum() on column c). -/
def countMissing (rows : List Row) (c : String) : Nat :=
  (rows.filter (isMissingAt c)).length

/-- The present (non-missing) numeric values of column c, in row order. -/
def presentNums (rows : List Row) (c : String) : List ℚ :=
  rows.filterMap (fun r =>
    match getCell r c with
    | some (Cell.num q) => some q
    | _ => none)

/-- Arithmetic mean of the present values of column c (Series.mean,
which skips missing values); none when no value is present, where
pandas returns NaN. -/
def colMean (rows : List Row) (c : String) : Option ℚ :=
  if presentNums rows c = [] then none
  else some ((presentNums rows c).sum / ((presentNums rows c).length : ℚ))

/-- The fill value of the Units_Sold step: the column mean when it is
defined, otherwise the missing marker (filling with NaN fills nothing). -/
def meanFill : Option ℚ → Cell
  | some q => Cell.num q
  | none => Cell.missing

/-- Row action of lines 228-234 of process_sales_data.py: when the
Units_Sold column has missing cells, fill them with the column mean
computed over the current rows. -/
def unitsRows (rs : List Row) : List Row :=
  if countMissing rs "Units_Sold" > 0 then
    rs.map (fillCell "Units_Sold" (meanFill (colMean rs "Units_Sold")))
  else rs

/-- Row action of lines 236-241: when the Revenue column has missing
cells, fill them with 0. -/
def revenueRows (rs : List Row) : List Row :=
  if countMissing rs "Revenue" > 0 then
    rs.map (fillCell "Revenue" (Cell.num 0))
  else rs

/-- Row action of lines 243-248: when the Product column has missing
cells, drop every row whose Product cell is missing. -/
def productRows (rs : List Row) : List Row :=
  if countMissing rs "Product" > 0 then
    rs.filter (fun r => !isMissingAt "Product" r)
  else rs

/-- Lines 228-234: the Units_Sold fill, applied only when the column
exists. -/
def cleanUnits (t : Table) : Table :=
  if "Units_Sold" ∈ t.cols then { t with rows := unitsRows t.rows } else t

/-- Lines 236-241: the Revenue fill, applied only when the column
exists. -/
def cleanRevenue (t : Table) : Table :=
  if "Revenue" ∈ t.cols then { t with rows := revenueRows t.rows } else t

/-- Lines 243-248: the Product drop, applied only when the column
exists. -/
def cleanProduct (t : Table) : Table :=
  if "Product" ∈ t.cols then { t with rows := productRows t.rows } else t

/-- clean_data (lines 207-253): fill missing Units_Sold with the column
mean, fill missing Revenue with 0, then drop rows with missing Product,
in exactly this order. -/
def clean_data (t : Table) : Table :=
  cleanProduct (cleanRevenue (cleanUnits t))

/-- The number of rows the Product step drops: the value missing_products
computed at line 245, on the table as it stands after the two fill steps. -/
def productsDropped (t : Table) : Nat :=
  if "Product" ∈ (cleanRevenue (cleanUnits t)).cols then
    countMissing (cleanRevenue (cleanUnits t)).rows "Product"
  else 0

/-- The reordered repair sequence named by claim C3: the drop-missing-
Product policy applied before the Units_Sold mean fill (and before the
Revenue fill).  Each per-column step is the one embedded from the
source; only the order differs. -/
def clean_data_dropFirst (t : Table) : Table :=
  cleanRevenue (cleanUnits (cleanProduct t))

/-- The filter predicate of line 271, df[df[Revenue] > threshold], on
one row: the Revenue cell is a number strictly greater than the
threshold.  A missing Revenue cell compares false (NaN > x is False). -/
def keepRow (threshold : ℚ) (r : Row) : Bool :=
  match getCell r "Revenue" with
  | some (Cell.num q) => threshold < q
  | _ => false

/-- The sort key of line 275: the numeric Revenue of a row.  After the
filter every surviving row has a numeric Revenue cell, so the default 0
is never consulted in the pipeline. -/
def revKey (r : Row) : ℚ :=
  match getCell r "Revenue" with
  | some (Cell.num q) => q
  | _ => 0

/-- Revenue-descending row order used by sort_values(Revenue,
ascending=False): a precedes b when the Revenue of a is at least that
of b. -/
def rowGE (a b : Row) : Prop := revKey b ≤ revKey a

instance : DecidableRel rowGE :=
  fun a b => inferInstanceAs (Decidable (revKey b ≤ revKey a))

instance : IsTotal Row rowGE :=
  ⟨fun a b => le_total (revKey b) (revKey a)⟩

instance : IsTrans Row rowGE :=
  ⟨fun _ _ _ hab hbc => le_trans hbc hab⟩

/-- filter_and_sort_data with the threshold abstracted.  The script
hardcodes 1000 at line 271; the spec exposes the threshold as a
parameter with default 1000, which this definition realises.  The
result is none when the Revenue column is absent (the KeyError raised
by df[df[Revenue] > threshold]). -/
def filterSortWith (threshold : ℚ) (t : Table) : Option Table :=
  if "Revenue" ∈ t.cols then
    some { cols := t.cols,
           rows := List.insertionSort rowGE (t.rows.filter (keepRow threshold)) }
  else none

/-- filter_and_sort_data (lines 256-281): filter for Revenue > 1000 and
sort by Revenue descending. -/
def filter_and_sort_data (t : Table) : Option Table :=
  filterSortWith 1000 t

/-! ## Concrete tables used by the claims -/

/-- The scenario table of spec section 8 and claim C2. -/
def scenarioTable : Table :=
  { cols := ["Product", "Units_Sold", "Revenue"],
    rows :=
      [ [("Product", Cell.str "A"), ("Units_Sold", Cell.num 10), ("Revenue", Cell.num 500)],
        [("Product", Cell.str "B"), ("Units_Sold", Cell.missing), ("Revenue", Cell.num 1500)],
        [("Product", Cell.missing), ("Units_Sold", Cell.num 5), ("Revenue", Cell.num 2000)] ] }

/-- The cleaned table the code actually produces on the scenario table:
row 3 dropped, and row 2's Units_Sold filled with 15/2 = 7.5, the mean
of the present values 10 and 5 of the original three rows. -/
def scenarioCleaned : Table :=
  { cols := ["Product", "Units_Sold", "Revenue"],
    rows :=
      [ [("Product", Cell.str "A"), ("Units_Sold", Cell.num 10), ("Revenue", Cell.num 500)],
        [("Product", Cell.str "B"), ("Units_Sold", Cell.num (15/2)), ("Revenue", Cell.num 1500)] ] }

/-- The final result the code actually produces on the scenario table. -/
def scenarioResult : Table :=
  { cols := ["Product", "Units_Sold", "Revenue"],
    rows :=
      [ [("Product", Cell.str "B"), ("Units_Sold", Cell.num (15/2)), ("Revenue", Cell.num 1500)] ] }

/-- The result claimed by the spec scenario: row 2 with Units_Sold 10. -/
def scenarioClaimedResult : Table :=
  { cols := ["Product", "Units_Sold", "Revenue"],
    rows :=
      [ [("Product", Cell.str "B"), ("Units_Sold", Cell.num 10), ("Revenue", Cell.num 1500)] ] }

/-- A table whose Units_Sold column exists but is missing in every row
(the degenerate-column input of claim C1). -/
def degenUnitsTable : Table :=
  { cols := ["Product", "Units_Sold", "Revenue"],
    rows :=
      [ [("Product", Cell.str "A"), ("Units_Sold", Cell.missing), ("Revenue", Cell.num 500)],
        [("Product", Cell.str "B"), ("Units_Sold", Cell.missing), ("Revenue", Cell.num 1500)] ] }

/-- Variant of the scenario table in which the row with the missing
Product also has a missing Units_Sold; used as the witness input for
the amended claim C3. -/
def alignedTable : Table :=
  { cols := ["Product", "Units_Sold", "Revenue"],
    rows :=
      [ [("Product", Cell.str "A"), ("Units_Sold", Cell.num 10), ("Revenue", Cell.num 500)],
        [("Product", Cell.str "B"), ("Units_Sold", Cell.missing), ("Revenue", Cell.num 1500)],
        [("Product", Cell.missing), ("Units_Sold", Cell.missing), ("Revenue", Cell.num 2000)] ] }

/-- A small already-clean table used by the C4 witness. -/
def smallTable : Table :=
  { cols := ["Product", "Revenue"],
    rows :=
      [ [("Product", Cell.str "A"), ("Revenue", Cell.num 500)],
        [("Product", Cell.str "B"), ("Revenue", Cell.num 1500)] ] }

/-- The filter/sort result on smallTable at threshold 1000. -/
def smallResult : Table :=
  { cols := ["Product", "Revenue"],
    rows := [ [("Product", Cell.str "B"), ("Revenue", Cell.num 1500)] ] }

/-- A table with rows but no row above threshold 1000; witness input of
claim C9. -/
def lowTable : Table :=
  { cols := ["Product", "Revenue"],
    rows :=
      [ [("Product", Cell.str "A"), ("Revenue", Cell.num 100)],
        [("Product", Cell.str "B"), ("Revenue", Cell.num 1000)] ] }

/-- A table without a Revenue column; witness input of claim C6. -/
def noRevenueTable : Table :=
  { cols := ["Product", "Units_Sold"],
    rows := [ [("Product", Cell.str "A"), ("Units_Sold", Cell.num 10)] ] }

/-! ## Basic lemmas about cells and rows -/

theorem getCell_fillCell_of_ne {c c' : String} (v : Cell) (r : Row) (h : c' ≠ c) :
    getCell (fillCell c' v r) c = getCell r c := by
  induction r with
  | nil => rfl
  | cons kv r ih =>
    obtain ⟨k, w⟩ := kv
    by_cases hk : k = c'
    · have hkc : ¬k = c := by rw [hk]; exact h
      by_cases hw : w = Cell.missing
      · simp [fillCell, hk, hw, getCell, hkc, h]
      · simp [fillCell, hk, hw, getCell, hkc, h]
    · by_cases hkc : k = c
      · have hk' : ¬c = c' := by rw [← hkc]; exact hk
        simp [fillCell, hk', getCell, hkc]
      · simp [fillCell, hk, getCell, hkc, ih]

theorem isMissingAt_fillCell_of_ne {c c' : String} (v : Cell) (r : Row) (h : c' ≠ c) :
    isMissingAt c (fillCell c' v r) = isMissingAt c r := by
  simp [isMissingAt, getCell_fillCell_of_ne v r h]

theorem fillCell_of_not_missing {c : String} (v : Cell) (r : Row)
    (h : isMissingAt c r = false) : fillCell c v r = r := by
  induction r with
  | nil => rfl
  | cons kv r ih =>
    obtain ⟨k, w⟩ := kv
    by_cases hk : k = c
    · by_cases hw : w = Cell.missing
      · exfalso
        simp [isMissingAt, getCell, hk, hw] at h
      · simp [fillCell, hk, hw]
    · have h' : isMissingAt c r = false := by
        simpa [isMissingAt, getCell, hk] using h
      simp [fillCell, hk, ih h']

theorem fillCell_missing {c : String} (r : Row) : fillCell c Cell.missing r = r := by
  induction r with
  | nil => rfl
  | cons kv r ih =>
    obtain ⟨k, w⟩ := kv
    by_cases hk : k = c
    · by_cases hw : w = Cell.missing
      · simp [fillCell, hk, hw]
      · simp [fillCell, hk, hw]
    · simp [fillCell, hk, ih]

theorem isMissingAt_fillCell_self {c : String} {v : Cell} (hv : v ≠ Cell.missing) (r : Row) :
    isMissingAt c (fillCell c v r) = false := by
  induction r with
  | nil => rfl
  | cons kv r ih =>
    obtain ⟨k, w⟩ := kv
    by_cases hk : k = c
    · by_cases hw : w = Cell.missing
      · simp [fillCell, hk, hw, isMissingAt, getCell, hv]
      · simp [fillCell, hk, hw, isMissingAt, getCell]
    · have heq : isMissingAt c (fillCell c v ((k, w) :: r)) = isMissingAt c (fillCell c v r) := by
        simp [fillCell, hk, isMissingAt, getCell]
      rw [heq]
      exact ih

/-! ## Lemmas about column statistics -/

theorem countMissing_eq_zero_iff {rs : List Row} {c : String} :
    countMissing rs c = 0 ↔ ∀ r ∈ rs, isMissingAt c r = false := by
  simp [countMissing, List.length_eq_zero, List.filter_eq_nil_iff]

theorem countMissing_map_fill_of_ne {c c' : String} (rs : List Row) (v : Cell) (h : c' ≠ c) :
    countMissing (rs.map (fillCell c' v)) c = countMissing rs c := by
  unfold countMissing
  rw [List.filter_map]
  have hp : ((fun r => isMissingAt c r) ∘ fillCell c' v) = fun r => isMissingAt c r := by
    funext r
    simp [Function.comp, isMissingAt_fillCell_of_ne v r h]
  rw [hp, List.length_map]

theorem countMissing_map_fill_self {c : String} {v : Cell} (rs : List Row)
    (hv : v ≠ Cell.missing) : countMissing (rs.map (fillCell c v)) c = 0 := by
  rw [countMissing_eq_zero_iff]
  intro r hr
  obtain ⟨r0, _, rfl⟩ := List.mem_map.mp hr
  exact isMissingAt_fillCell_self hv r0

theorem countMissing_filter_of_zero {rs : List Row} {c : String} (p : Row → Bool)
    (h : countMissing rs c = 0) : countMissing (rs.filter p) c = 0 := by
  rw [countMissing_eq_zero_iff] at h ⊢
  intro r hr
  exact h r (List.mem_filter.mp hr).1

theorem map_fill_of_no_missing {rs : List Row} {c : String} (v : Cell)
    (h : countMissing rs c = 0) : rs.map (fillCell c v) = rs := by
  have h' := countMissing_eq_zero_iff.mp h
  calc rs.map (fillCell c v)
      = rs.map id := List.map_congr_left (fun r hr => by
          rw [fillCell_of_not_missing v r (h' r hr)]; rfl)
    _ = rs := List.map_id rs

theorem presentNums_map_fill_of_ne {c c' : String} (rs : List Row) (v : Cell) (h : c' ≠ c) :
    presentNums (rs.map (fillCell c' v)) c = presentNums rs c := by
  unfold presentNums
  rw [List.filterMap_map]
  congr 1
  funext r
  simp [Function.comp, getCell_fillCell_of_ne v r h]

theorem presentNums_filter_of_nil {rs : List Row} {c : String} (p : Row → Bool)
    (h : presentNums rs c = []) : presentNums (rs.filter p) c = [] := by
  unfold presentNums at h ⊢
  rw [List.filterMap_eq_nil_iff] at h ⊢
  intro r hr
  exact h r (List.mem_filter.mp hr).1

theorem colMean_eq_none_iff {rs : List Row} {c : String} :
    colMean rs c = none ↔ presentNums rs c = [] := by
  unfold colMean
  split <;> simp_all

theorem colMean_map_fill_of_ne {c c' : String} (rs : List Row) (v : Cell) (h : c' ≠ c) :
    colMean (rs.map (fillCell c' v)) c = colMean rs c := by
  unfold colMean
  rw [presentNums_map_fill_of_ne rs v h]

/-! ## Guard-case equations for the three repair steps -/

theorem unitsRows_pos {rs : List Row} (h : countMissing rs "Units_Sold" > 0) :
    unitsRows rs = rs.map (fillCell "Units_Sold" (meanFill (colMean rs "Units_Sold"))) := by
  unfold unitsRows
  rw [if_pos h]

theorem unitsRows_zero {rs : List Row} (h : countMissing rs "Units_Sold" = 0) :
    unitsRows rs = rs := by
  unfold unitsRows
  rw [if_neg (by omega)]

theorem revenueRows_pos {rs : List Row} (h : countMissing rs "Revenue" > 0) :
    revenueRows rs = rs.map (fillCell "Revenue" (Cell.num 0)) := by
  unfold revenueRows
  rw [if_pos h]

theorem revenueRows_zero {rs : List Row} (h : countMissing rs "Revenue" = 0) :
    revenueRows rs = rs := by
  unfold revenueRows
  rw [if_neg (by omega)]

theorem productRows_pos {rs : List Row} (h : countMissing rs "Product" > 0) :
    productRows rs = rs.filter (fun r => !isMissingAt "Product" r) := by
  unfold productRows
  rw [if_pos h]

theorem productRows_zero {rs : List Row} (h : countMissing rs "Product" = 0) :
    productRows rs = rs := by
  unfold productRows
  rw [if_neg (by omega)]

theorem unitsRows_of_mean_none {rs : List Row} (h : colMean rs "Units_Sold" = none) :
    unitsRows rs = rs := by
  unfold unitsRows
  split
  · rw [h]
    calc rs.map (fillCell "Units_Sold" (meanFill none))
        = rs.map id := List.map_congr_left (fun r _ => by
            show fillCell "Units_Sold" Cell.missing r = r
            exact fillCell_missing r)
      _ = rs := List.map_id rs
  · rfl

/-! ## Stability facts feeding idempotence and commutation -/

theorem countMissing_revenueRows (rs : List Row) :
    countMissing (revenueRows rs) "Revenue" = 0 := by
  by_cases h : countMissing rs "Revenue" > 0
  · rw [revenueRows_pos h]
    exact countMissing_map_fill_self rs (by simp)
  · rw [revenueRows_zero (by omega)]
    omega

theorem countMissing_productRows (rs : List Row) :
    countMissing (productRows rs) "Product" = 0 := by
  by_cases h : countMissing rs "Product" > 0
  · rw [productRows_pos h, countMissing_eq_zero_iff]
    intro r hr
    simpa using (List.mem_filter.mp hr).2
  · rw [productRows_zero (by omega)]
    omega

theorem countMissing_productRows_of_zero {rs : List Row} {c : String}
    (h : countMissing rs c = 0) : countMissing (productRows rs) c = 0 := by
  by_cases hp : countMissing rs "Product" > 0
  · rw [productRows_pos hp]
    exact countMissing_filter_of_zero _ h
  · rw [productRows_zero (by omega)]
    exact h

theorem countMissing_revenueRows_units {rs : List Row}
    (h : countMissing rs "Units_Sold" = 0) :
    countMissing (revenueRows rs) "Units_Sold" = 0 := by
  by_cases hr : countMissing rs "Revenue" > 0
  · rw [revenueRows_pos hr, countMissing_map_fill_of_ne rs _ (by decide)]
    exact h
  · rw [revenueRows_zero (by omega)]
    exact h

theorem presentNums_revenueRows_units {rs : List Row} :
    presentNums (revenueRows rs) "Units_Sold" = presentNums rs "Units_Sold" := by
  by_cases hr : countMissing rs "Revenue" > 0
  · rw [revenueRows_pos hr]
    exact presentNums_map_fill_of_ne rs _ (by decide)
  · rw [revenueRows_zero (by omega)]

theorem presentNums_productRows_of_nil {rs : List Row}
    (h : presentNums rs "Units_Sold" = []) :
    presentNums (productRows rs) "Units_Sold" = [] := by
  by_cases hp : countMissing rs "Product" > 0
  · rw [productRows_pos hp]
    exact presentNums_filter_of_nil _ h
  · rw [productRows_zero (by omega)]
    exact h

/-- After the Units_Sold step, either no Units_Sold cell is missing or
no Units_Sold value is present at all (the degenerate column, where the
fill used NaN and changed nothing). -/
theorem unitsRows_resolved (rs : List Row) :
    countMissing (unitsRows rs) "Units_Sold" = 0 ∨
      presentNums (unitsRows rs) "Units_Sold" = [] := by
  by_cases hm : colMean rs "Units_Sold" = none
  · right
    rw [unitsRows_of_mean_none hm]
    exact colMean_eq_none_iff.mp hm
  · left
    by_cases hu : countMissing rs "Units_Sold" > 0
    · rw [unitsRows_pos hu]
      apply countMissing_map_fill_self
      cases h : colMean rs "Units_Sold" with
      | none => exact absurd h hm
      | some q => simp [meanFill]
    · rw [unitsRows_zero (by omega)]
      omega

/-- The resolved state survives the Revenue and Product steps, and in a
resolved state the Units_Sold step is the identity. -/
theorem unitsRows_of_resolved {rs : List Row}
    (h : countMissing rs "Units_Sold" = 0 ∨ presentNums rs "Units_Sold" = []) :
    unitsRows rs = rs := by
  cases h with
  | inl h0 => exact unitsRows_zero h0
  | inr hnil => exact unitsRows_of_mean_none (colMean_eq_none_iff.mpr hnil)

theorem resolved_revenueRows {rs : List Row}
    (h : countMissing rs "Units_Sold" = 0 ∨ presentNums rs "Units_Sold" = []) :
    countMissing (revenueRows rs) "Units_Sold" = 0 ∨
      presentNums (revenueRows rs) "Units_Sold" = [] := by
  cases h with
  | inl h0 => exact Or.inl (countMissing_revenueRows_units h0)
  | inr hnil => exact Or.inr (by rw [presentNums_revenueRows_units]; exact hnil)

theorem resolved_productRows {rs : List Row}
    (h : countMissing rs "Units_Sold" = 0 ∨ presentNums rs "Units_Sold" = []) :
    countMissing (productRows rs) "Units_Sold" = 0 ∨
      presentNums (productRows rs) "Units_Sold" = [] := by
  cases h with
  | inl h0 => exact Or.inl (countMissing_productRows_of_zero h0)
  | inr hnil => exact Or.inr (presentNums_productRows_of_nil hnil)

/-! ## Table-level structure of clean_data -/

theorem cleanUnits_cols (t : Table) : (cleanUnits t).cols = t.cols := by
  unfold cleanUnits
  split <;> rfl

theorem cleanRevenue_cols (t : Table) : (cleanRevenue t).cols = t.cols := by
  unfold cleanRevenue
  split <;> rfl

theorem cleanProduct_cols (t : Table) : (cleanProduct t).cols = t.cols := by
  unfold cleanProduct
  split <;> rfl

theorem clean_data_cols (t : Table) : (clean_data t).cols = t.cols := by
  unfold clean_data
  rw [cleanProduct_cols, cleanRevenue_cols, cleanUnits_cols]

theorem clean_data_rows (t : Table) :
    (clean_data t).rows =
      (if "Product" ∈ t.cols then productRows else id)
        ((if "Revenue" ∈ t.cols then revenueRows else id)
          ((if "Units_Sold" ∈ t.cols then unitsRows else id) t.rows)) := by
  unfold clean_data cleanProduct cleanRevenue cleanUnits
  by_cases h1 : "Units_Sold" ∈ t.cols <;> by_cases h2 : "Revenue" ∈ t.cols <;>
    by_cases h3 : "Product" ∈ t.cols <;> simp [h1, h2, h3]

theorem clean_data_units_resolved (t : Table) (hU : "Units_Sold" ∈ t.cols) :
    countMissing (clean_data t).rows "Units_Sold" = 0 ∨
      presentNums (clean_data t).rows "Units_Sold" = [] := by
  rw [clean_data_rows t, if_pos hU]
  have h1 := unitsRows_resolved t.rows
  by_cases hR : "Revenue" ∈ t.cols
  · rw [if_pos hR]
    have h2 := resolved_revenueRows h1
    by_cases hP : "Product" ∈ t.cols
    · rw [if_pos hP]
      exact resolved_productRows h2
    · rw [if_neg hP]
      exact h2
  · rw [if_neg hR]
    simp only [id_eq]
    by_cases hP : "Product" ∈ t.cols
    · rw [if_pos hP]
      exact resolved_productRows h1
    · rw [if_neg hP]
      simp only [id_eq]
      exact h1

theorem clean_data_revenue_resolved (t : Table) (hR : "Revenue" ∈ t.cols) :
    countMissing (clean_data t).rows "Revenue" = 0 := by
  rw [clean_data_rows t, if_pos hR]
  have h2 := countMissing_revenueRows ((if "Units_Sold" ∈ t.cols then unitsRows else id) t.rows)
  by_cases hP : "Product" ∈ t.cols
  · rw [if_pos hP]
    exact countMissing_productRows_of_zero h2
  · rw [if_neg hP]
    simp only [id_eq]
    exact h2

theorem clean_data_product_resolved (t : Table) (hP : "Product" ∈ t.cols) :
    countMissing (clean_data t).rows "Product" = 0 := by
  rw [clean_data_rows t, if_pos hP]
  exact countMissing_productRows _

theorem cleanUnits_clean_data (t : Table) : cleanUnits (clean_data t) = clean_data t := by
  by_cases hU : "Units_Sold" ∈ t.cols
  · have hU' : "Units_Sold" ∈ (clean_data t).cols := by
      rw [clean_data_cols]; exact hU
    unfold cleanUnits
    rw [if_pos hU', unitsRows_of_resolved (clean_data_units_resolved t hU)]
  · unfold cleanUnits
    rw [if_neg (by rw [clean_data_cols]; exact hU)]

theorem cleanRevenue_clean_data (t : Table) : cleanRevenue (clean_data t) = clean_data t := by
  by_cases hR : "Revenue" ∈ t.cols
  · have hR' : "Revenue" ∈ (clean_data t).cols := by
      rw [clean_data_cols]; exact hR
    unfold cleanRevenue
    rw [if_pos hR', revenueRows_zero (clean_data_revenue_resolved t hR)]
  · unfold cleanRevenue
    rw [if_neg (by rw [clean_data_cols]; exact hR)]

theorem cleanProduct_clean_data (t : Table) : cleanProduct (clean_data t) = clean_data t := by
  by_cases hP : "Product" ∈ t.cols
  · have hP' : "Product" ∈ (clean_data t).cols := by
      rw [clean_data_cols]; exact hP
    unfold cleanProduct
    rw [if_pos hP', productRows_zero (clean_data_product_resolved t hP)]
  · unfold cleanProduct
    rw [if_neg (by rw [clean_data_cols]; exact hP)]

/-- The repair step of the script is idempotent on every table, with no
non-degeneracy assumption needed: on a second pass every guard
missing > 0 is false or the fill value is NaN again, so nothing changes. -/
theorem clean_data_idem (t : Table) : clean_data (clean_data t) = clean_data t := by
  show cleanProduct (cleanRevenue (cleanUnits (clean_data t))) = clean_data t
  rw [cleanUnits_clean_data, cleanRevenue_clean_data, cleanProduct_clean_data]

/-! ## Commutation of the per-column repair steps -/

theorem isMissingAt_eq_true_iff {c : String} {r : Row} :
    isMissingAt c r = true ↔ getCell r c = some Cell.missing := by
  unfold isMissingAt
  cases hg : getCell r c with
  | none => simp
  | some w => cases w <;> simp

theorem filter_keepP_map_fill {c' : String} (rs : List Row) (v : Cell) (h : c' ≠ "Product") :
    (rs.map (fillCell c' v)).filter (fun r => !isMissingAt "Product" r)
      = (rs.filter (fun r => !isMissingAt "Product" r)).map (fillCell c' v) := by
  rw [List.filter_map]
  congr 1
  apply List.filter_congr
  intro r _
  simp [Function.comp, isMissingAt_fillCell_of_ne v r h]

theorem filterMap_filter_eq_self {α β : Type} (f : α → Option β) (p : α → Bool)
    (l : List α) (h : ∀ a ∈ l, p a = false → f a = none) :
    (l.filter p).filterMap f = l.filterMap f := by
  induction l with
  | nil => rfl
  | cons a l ih =>
    have ih' := ih (fun x hx => h x (List.mem_cons_of_mem _ hx))
    by_cases hp : p a = true
    · cases hfa : f a with
      | none => simp [List.filter_cons_of_pos hp, List.filterMap_cons, hfa, ih']
      | some b => simp [List.filter_cons_of_pos hp, List.filterMap_cons, hfa, ih']
    · have hf : f a = none := h a (List.mem_cons_self a l) (by simpa using hp)
      simp [List.filter_cons_of_neg (by simpa using hp), List.filterMap_cons, hf, ih']

theorem presentNums_productRows_aligned {rs : List Row}
    (h : ∀ r ∈ rs, isMissingAt "Product" r = true → isMissingAt "Units_Sold" r = true) :
    presentNums (productRows rs) "Units_Sold" = presentNums rs "Units_Sold" := by
  by_cases hP : countMissing rs "Product" > 0
  · rw [productRows_pos hP]
    unfold presentNums
    apply filterMap_filter_eq_self
    intro r hr hpr
    have hmiss : isMissingAt "Product" r = true := by simpa using hpr
    have hu := isMissingAt_eq_true_iff.mp (h r hr hmiss)
    rw [hu]
  · rw [productRows_zero (by omega)]

theorem colMean_productRows_aligned {rs : List Row}
    (h : ∀ r ∈ rs, isMissingAt "Product" r = true → isMissingAt "Units_Sold" r = true) :
    colMean (productRows rs) "Units_Sold" = colMean rs "Units_Sold" := by
  unfold colMean
  rw [presentNums_productRows_aligned h]

/-- The Revenue fill and the Product drop commute unconditionally: the
fill value 0 does not depend on the surviving rows, and the drop
predicate does not look at Revenue. -/
theorem productRows_revenueRows (rs : List Row) :
    productRows (revenueRows rs) = revenueRows (productRows rs) := by
  by_cases hR : countMissing rs "Revenue" > 0
  · rw [revenueRows_pos hR]
    by_cases hP : countMissing rs "Product" > 0
    · have hP' : countMissing (rs.map (fillCell "Revenue" (Cell.num 0))) "Product" > 0 := by
        rw [countMissing_map_fill_of_ne rs _ (by decide)]
        exact hP
      rw [productRows_pos hP', filter_keepP_map_fill rs _ (by decide), productRows_pos hP]
      by_cases hR2 : countMissing (rs.filter (fun r => !isMissingAt "Product" r)) "Revenue" > 0
      · rw [revenueRows_pos hR2]
      · rw [revenueRows_zero (by omega)]
        exact map_fill_of_no_missing _ (by omega)
    · have hP0 : countMissing rs "Product" = 0 := by omega
      have hP0' : countMissing (rs.map (fillCell "Revenue" (Cell.num 0))) "Product" = 0 := by
        rw [countMissing_map_fill_of_ne rs _ (by decide)]
        exact hP0
      rw [productRows_zero hP0', productRows_zero hP0, revenueRows_pos hR]
  · rw [revenueRows_zero (by omega)]
    by_cases hP : countMissing rs "Product" > 0
    · rw [productRows_pos hP, revenueRows_zero (countMissing_filter_of_zero _ (by omega))]
    · rw [productRows_zero (by omega), revenueRows_zero (by omega)]

/-- The Units_Sold mean fill and the Product drop commute provided every
row with a missing Product also has a missing Units_Sold, so that the
dropped rows contribute nothing to the mean. -/
theorem productRows_unitsRows {rs : List Row}
    (h : ∀ r ∈ rs, isMissingAt "Product" r = true → isMissingAt "Units_Sold" r = true) :
    productRows (unitsRows rs) = unitsRows (productRows rs) := by
  by_cases hU : countMissing rs "Units_Sold" > 0
  · rw [unitsRows_pos hU]
    by_cases hP : countMissing rs "Product" > 0
    · have hP' : countMissing
          (rs.map (fillCell "Units_Sold" (meanFill (colMean rs "Units_Sold")))) "Product" > 0 := by
        rw [countMissing_map_fill_of_ne rs _ (by decide)]
        exact hP
      rw [productRows_pos hP', filter_keepP_map_fill rs _ (by decide), productRows_pos hP]
      by_cases hU2 : countMissing (rs.filter (fun r => !isMissingAt "Product" r)) "Units_Sold" > 0
      · rw [unitsRows_pos hU2]
        have hm : colMean (rs.filter (fun r => !isMissingAt "Product" r)) "Units_Sold"
            = colMean rs "Units_Sold" := by
          have hcm := colMean_productRows_aligned h
          rw [productRows_pos hP] at hcm
          exact hcm
        rw [hm]
      · rw [unitsRows_zero (by omega)]
        exact map_fill_of_no_missing _ (by omega)
    · have hP0 : countMissing rs "Product" = 0 := by omega
      have hP0' : countMissing
          (rs.map (fillCell "Units_Sold" (meanFill (colMean rs "Units_Sold")))) "Product" = 0 := by
        rw [countMissing_map_fill_of_ne rs _ (by decide)]
        exact hP0
      rw [productRows_zero hP0', productRows_zero hP0, unitsRows_pos hU]
  · rw [unitsRows_zero (by omega)]
    by_cases hP : countMissing rs "Product" > 0
    · rw [productRows_pos hP, unitsRows_zero (countMissing_filter_of_zero _ (by omega))]
    · rw [productRows_zero (by omega), unitsRows_zero (by omega)]

theorem clean_data_dropFirst_cols (t : Table) : (clean_data_dropFirst t).cols = t.cols := by
  unfold clean_data_dropFirst
  rw [cleanRevenue_cols, cleanUnits_cols, cleanProduct_cols]

theorem clean_data_dropFirst_rows (t : Table) :
    (clean_data_dropFirst t).rows =
      (if "Revenue" ∈ t.cols then revenueRows else id)
        ((if "Units_Sold" ∈ t.cols then unitsRows else id)
          ((if "Product" ∈ t.cols then productRows else id) t.rows)) := by
  unfold clean_data_dropFirst cleanProduct cleanRevenue cleanUnits
  by_cases h1 : "Units_Sold" ∈ t.cols <;> by_cases h2 : "Revenue" ∈ t.cols <;>
    by_cases h3 : "Product" ∈ t.cols <;> simp [h1, h2, h3]

/-- Dropping missing-Product rows before the two fills gives the same
cleaned table as the script's fill-then-drop order whenever every row
with a missing Product also has a missing Units_Sold. -/
theorem clean_data_comm (t : Table)
    (h : ∀ r ∈ t.rows, isMissingAt "Product" r = true → isMissingAt "Units_Sold" r = true) :
    clean_data_dropFirst t = clean_data t := by
  apply Table.ext
  · rw [clean_data_dropFirst_cols, clean_data_cols]
  · rw [clean_data_dropFirst_rows, clean_data_rows]
    by_cases hP : "Product" ∈ t.cols
    · rw [if_pos hP]
      by_cases hU : "Units_Sold" ∈ t.cols <;> by_cases hR : "Revenue" ∈ t.cols
      · rw [if_pos hU, if_pos hR, ← productRows_unitsRows h, ← productRows_revenueRows]
      · rw [if_pos hU, if_neg hR]
        simp only [id_eq]
        exact (productRows_unitsRows h).symm
      · rw [if_neg hU, if_pos hR]
        simp only [id_eq]
        exact (productRows_revenueRows t.rows).symm
      · rw [if_neg hU, if_neg hR]
        simp only [id_eq]
    · rw [if_neg hP]
      simp only [id_eq]

/-! ## Row counting for the cleaned table -/

theorem length_filter_not_missing (rs : List Row) (c : String) :
    (rs.filter (fun r => !isMissingAt c r)).length = rs.length - countMissing rs c := by
  unfold countMissing
  induction rs with
  | nil => rfl
  | cons r rs ih =>
    have hle := List.length_filter_le (isMissingAt c) rs
    by_cases hp : isMissingAt c r = true
    · rw [List.filter_cons_of_neg (by simp [hp]), List.filter_cons_of_pos hp]
      rw [ih]
      simp only [List.length_cons]
      omega
    · rw [List.filter_cons_of_pos (by simp [hp]), List.filter_cons_of_neg hp]
      simp only [List.length_cons]
      rw [ih]
      omega

theorem unitsRows_length (rs : List Row) : (unitsRows rs).length = rs.length := by
  unfold unitsRows
  split
  · rw [List.length_map]
  · rfl

theorem revenueRows_length (rs : List Row) : (revenueRows rs).length = rs.length := by
  unfold revenueRows
  split
  · rw [List.length_map]
  · rfl

theorem cleanUnits_rows (t : Table) :
    (cleanUnits t).rows = if "Units_Sold" ∈ t.cols then unitsRows t.rows else t.rows := by
  unfold cleanUnits
  split <;> simp_all

theorem cleanRevenue_rows (t : Table) :
    (cleanRevenue t).rows = if "Revenue" ∈ t.cols then revenueRows t.rows else t.rows := by
  unfold cleanRevenue
  split <;> simp_all

theorem rows_length_fills (t : Table) :
    (cleanRevenue (cleanUnits t)).rows.length = t.rows.length := by
  rw [cleanRevenue_rows, cleanUnits_cols, cleanUnits_rows]
  by_cases h1 : "Units_Sold" ∈ t.cols <;> by_cases h2 : "Revenue" ∈ t.cols <;>
    simp [h1, h2, unitsRows_length, revenueRows_length]

theorem clean_data_length (t : Table) :
    (clean_data t).rows.length = t.rows.length - productsDropped t := by
  unfold productsDropped
  by_cases hP : "Product" ∈ (cleanRevenue (cleanUnits t)).cols
  · rw [if_pos hP]
    show (cleanProduct (cleanRevenue (cleanUnits t))).rows.length = _
    unfold cleanProduct
    rw [if_pos hP]
    show (productRows (cleanRevenue (cleanUnits t)).rows).length = _
    unfold productRows
    by_cases hm : countMissing (cleanRevenue (cleanUnits t)).rows "Product" > 0
    · rw [if_pos hm, length_filter_not_missing, rows_length_fills]
    · rw [if_neg hm, rows_length_fills]
      omega
  · rw [if_neg hP]
    show (cleanProduct (cleanRevenue (cleanUnits t))).rows.length = _
    unfold cleanProduct
    rw [if_neg hP, rows_length_fills]
    omega

/-! ## Filter and sort lemmas -/

theorem keepRow_iff {θ : ℚ} {r : Row} :
    keepRow θ r = true ↔ ∃ q, getCell r "Revenue" = some (Cell.num q) ∧ θ < q := by
  unfold keepRow
  cases hg : getCell r "Revenue" with
  | none => simp
  | some w =>
    cases w with
    | missing => simp
    | num q =>
      simp only [decide_eq_true_eq, Option.some.injEq, Cell.num.injEq]
      constructor
      · intro hq
        exact ⟨q, rfl, hq⟩
      · rintro ⟨q', hq', hlt⟩
        subst hq'
        exact hlt
    | str s => simp

theorem filterSortWith_eq_some {θ : ℚ} {t : Table} (h : "Revenue" ∈ t.cols) :
    filterSortWith θ t = some
      { cols := t.cols, rows := List.insertionSort rowGE (t.rows.filter (keepRow θ)) } := by
  unfold filterSortWith
  rw [if_pos h]

theorem filterSortWith_cols {θ : ℚ} {t res : Table}
    (h : filterSortWith θ t = some res) : res.cols = t.cols := by
  unfold filterSortWith at h
  by_cases hc : "Revenue" ∈ t.cols
  · rw [if_pos hc] at h
    have := Option.some.inj h
    rw [← this]
  · rw [if_neg hc] at h
    cases h

theorem filterSortWith_mem_rows {θ : ℚ} {t res : Table}
    (h : filterSortWith θ t = some res) {r : Row} :
    r ∈ res.rows ↔ r ∈ t.rows ∧ keepRow θ r = true := by
  unfold filterSortWith at h
  by_cases hc : "Revenue" ∈ t.cols
  · rw [if_pos hc] at h
    have hres := Option.some.inj h
    rw [← hres]
    simp [List.mem_insertionSort, List.mem_filter]
  · rw [if_neg hc] at h
    cases h

theorem filterSortWith_empty {θ : ℚ} {t : Table} (hmem : "Revenue" ∈ t.cols)
    (hall : ∀ r ∈ t.rows, keepRow θ r = false) :
    filterSortWith θ t = some { cols := t.cols, rows := [] } := by
  have hfil : t.rows.filter (keepRow θ) = [] :=
    List.filter_eq_nil_iff.mpr (fun a ha => by simp [hall a ha])
  rw [filterSortWith_eq_some hmem, hfil]
  rfl

/-! ## The claims -/

section ConcreteEvaluation

attribute [local semireducible] Rat.add Rat.mul Rat.inv Rat.sub

/-- Claim C1, evaluation at the failing input: on a table whose
Units_Sold column exists but is missing in every row, clean_data raises
nothing and returns the table unchanged, the Units_Sold cells still
missing.  Series.mean of an all-missing column is NaN and fillna(NaN)
fills nothing, so the NaN values survive silently; no
DegenerateColumnError (or any error path) exists in the source. -/
theorem C1_degenerate_eval : clean_data degenUnitsTable = degenUnitsTable := by
  decide

/-- Claim C2, counterexample: on the spec scenario table the pipeline
does not return the claimed result [Product B, Units_Sold 10,
Revenue 1500]. -/
theorem C2_scenario_counterexample :
    filter_and_sort_data (clean_data scenarioTable) ≠ some scenarioClaimedResult := by
  decide

/-- Claim C2 as amended: on the scenario table the repair step drops
row 3 and fills row 2's Units_Sold with 15/2 = 7.5, the mean of the
present values 10 and 5 of all three original rows (the fill runs
before the drop), yielding the 2-row scenarioCleaned; the filter-sort
step then returns exactly [Product B, Units_Sold 7.5, Revenue 1500]. -/
theorem C2_scenario :
    clean_data scenarioTable = scenarioCleaned ∧
      filter_and_sort_data (clean_data scenarioTable) = some scenarioResult := by
  constructor <;> decide

/-- Claim C3, counterexample: applying the drop-missing-Product policy
before the Units_Sold mean fill changes the cleaned table on the
scenario table (the dropped row's present Units_Sold value 5 takes
part in the mean in the script's fill-then-drop order, giving 7.5, but
not in the drop-first order, giving 10). -/
theorem C3_order_counterexample :
    clean_data_dropFirst scenarioTable ≠ clean_data scenarioTable := by
  decide

end ConcreteEvaluation

/-- Claim C3 as amended: the cleaned table is independent of the policy
order on exactly those tables where every row with a missing Product
also has a missing Units_Sold, so that dropped rows contribute no
present value to the mean; then drop-before-fill agrees with the
script's fill-then-drop order. -/
theorem C3_order_comm (t : Table)
    (h : ∀ r ∈ t.rows, isMissingAt "Product" r = true → isMissingAt "Units_Sold" r = true) :
    clean_data_dropFirst t = clean_data t :=
  clean_data_comm t h

/-- Witness for C3_order_comm at the aligned variant of the scenario
table. -/
theorem C3_order_comm_witness :
    (∀ r ∈ alignedTable.rows,
        isMissingAt "Product" r = true → isMissingAt "Units_Sold" r = true) ∧
      clean_data_dropFirst alignedTable = clean_data alignedTable :=
  ⟨by decide, C3_order_comm alignedTable (by decide)⟩

/-- Claim C4: for every table whose Revenue cells are numeric and every
threshold, a row is kept by the filter step iff its Revenue is strictly
greater than the threshold: every row of the result satisfies
Revenue > threshold, and every row of the input not in the result
satisfies Revenue <= threshold (so Revenue = threshold is excluded). -/
theorem C4_filter_strict (θ : ℚ) (t res : Table)
    (h : filterSortWith θ t = some res)
    (hnum : ∀ r ∈ t.rows, ∃ q, getCell r "Revenue" = some (Cell.num q)) :
    (∀ r ∈ res.rows, ∃ q, getCell r "Revenue" = some (Cell.num q) ∧ θ < q) ∧
      (∀ r ∈ t.rows, r ∉ res.rows → ∃ q, getCell r "Revenue" = some (Cell.num q) ∧ q ≤ θ) := by
  constructor
  · intro r hr
    exact keepRow_iff.mp ((filterSortWith_mem_rows h).mp hr).2
  · intro r hr hnot
    obtain ⟨q, hq⟩ := hnum r hr
    refine ⟨q, hq, ?_⟩
    by_contra hgt
    push_neg at hgt
    exact hnot ((filterSortWith_mem_rows h).mpr ⟨hr, keepRow_iff.mpr ⟨q, hq, hgt⟩⟩)

section ConcreteWitnesses

attribute [local semireducible] Rat.add Rat.mul Rat.inv Rat.sub

/-- Witness for C4_filter_strict on smallTable at threshold 1000. -/
theorem C4_filter_strict_witness :
    (∀ r ∈ smallResult.rows, ∃ q, getCell r "Revenue" = some (Cell.num q) ∧ (1000 : ℚ) < q) ∧
      (∀ r ∈ smallTable.rows, r ∉ smallResult.rows →
        ∃ q, getCell r "Revenue" = some (Cell.num q) ∧ q ≤ (1000 : ℚ)) :=
  C4_filter_strict 1000 smallTable smallResult (by decide)
    (by
      intro r hr
      rcases List.mem_cons.mp hr with rfl | hr2
      · exact ⟨500, by decide⟩
      · rcases List.mem_cons.mp hr2 with rfl | h3
        · exact ⟨1500, by decide⟩
        · cases h3)

end ConcreteWitnesses

/-- Claim C6: on every input table that lacks a Revenue column the
filter step fails (the KeyError raised by df[df[Revenue] > 1000],
called SchemaError by the spec) instead of returning a table; it never
silently treats the missing column as every row failing the filter. -/
theorem C6_missing_revenue_schema (t : Table) (h : "Revenue" ∉ t.cols) :
    filter_and_sort_data t = none := by
  unfold filter_and_sort_data filterSortWith
  rw [if_neg h]

/-- Witness for C6_missing_revenue_schema at a concrete table without a
Revenue column. -/
theorem C6_missing_revenue_schema_witness :
    ("Revenue" ∉ noRevenueTable.cols) ∧ filter_and_sort_data noRevenueTable = none :=
  ⟨by decide, C6_missing_revenue_schema noRevenueTable (by decide)⟩

/-- Claim C7: the repair step is idempotent on every table whose
Units_Sold column has at least one present value (in fact on every
table): the second pass finds nothing left to fill or drop. -/
theorem C7_repair_idempotent (t : Table)
    (_h : presentNums t.rows "Units_Sold" ≠ []) :
    clean_data (clean_data t) = clean_data t :=
  clean_data_idem t

section ConcreteWitnessesB

attribute [local semireducible] Rat.add Rat.mul Rat.inv Rat.sub

/-- Witness for C7_repair_idempotent at the scenario table. -/
theorem C7_repair_idempotent_witness :
    presentNums scenarioTable.rows "Units_Sold" ≠ [] ∧
      clean_data (clean_data scenarioTable) = clean_data scenarioTable :=
  ⟨by decide, C7_repair_idempotent scenarioTable (by decide)⟩

end ConcreteWitnessesB

/-- Claim C8: for every input table, the cleaned table's row count is
the original row count minus the number of rows dropped for a missing
Product identifier. -/
theorem C8_row_count_invariant (t : Table) :
    (clean_data t).rows.length = t.rows.length - productsDropped t :=
  clean_data_length t

/-- Claim C9: on every table that has a Revenue column and at least one
row, all of whose rows have numeric Revenue at most the threshold, the
filter-sort step returns a valid zero-row table with the original
column set; it raises no error and returns no null value. -/
theorem C9_zero_row_result (θ : ℚ) (t : Table)
    (hmem : "Revenue" ∈ t.cols) (_hne : t.rows ≠ [])
    (hall : ∀ r ∈ t.rows, ∃ q, getCell r "Revenue" = some (Cell.num q) ∧ q ≤ θ) :
    filterSortWith θ t = some { cols := t.cols, rows := [] } := by
  apply filterSortWith_empty hmem
  intro r hr
  obtain ⟨q, hq, hle⟩ := hall r hr
  rw [Bool.eq_false_iff]
  intro hk
  obtain ⟨q', hq', hlt⟩ := keepRow_iff.mp hk
  rw [hq] at hq'
  simp only [Option.some.injEq, Cell.num.injEq] at hq'
  subst hq'
  exact absurd hlt (not_lt.mpr hle)

section ConcreteWitnessesC

attribute [local semireducible] Rat.add Rat.mul Rat.inv Rat.sub

/-- Witness for C9_zero_row_result at lowTable with threshold 1000. -/
theorem C9_zero_row_result_witness :
    ("Revenue" ∈ lowTable.cols ∧ lowTable.rows ≠ []) ∧
      filterSortWith 1000 lowTable = some { cols := lowTable.cols, rows := [] } :=
  ⟨⟨by decide, by decide⟩,
    C9_zero_row_result 1000 lowTable (by decide) (by decide)
      (by
        intro r hr
        rcases List.mem_cons.mp hr with rfl | hr2
        · exact ⟨100, by decide, by norm_num⟩
        · rcases List.mem_cons.mp hr2 with rfl | h3
          · exact ⟨1000, by decide, le_refl _⟩
          · cases h3)⟩

end ConcreteWitnessesC

/-- Claim C10: the filter-sort step only selects and reorders rows: on
every input table with a Revenue column, each row of the result equals,
in every column and cell value, some row of the input, and the result
keeps the input's column set. -/
theorem C10_filter_sort_frame (t res : Table) (_hmem : "Revenue" ∈ t.cols)
    (h : filter_and_sort_data t = some res) :
    res.cols = t.cols ∧ ∀ r ∈ res.rows, r ∈ t.rows := by
  constructor
  · exact filterSortWith_cols h
  · intro r hr
    exact ((filterSortWith_mem_rows h).mp hr).1

section ConcreteWitnessesD

attribute [local semireducible] Rat.add Rat.mul Rat.inv Rat.sub

/-- Witness for C10_filter_sort_frame on smallTable. -/
theorem C10_filter_sort_frame_witness :
    smallResult.cols = smallTable.cols ∧ ∀ r ∈ smallResult.rows, r ∈ smallTable.rows :=
  C10_filter_sort_frame smallTable smallResult (by decide) (by decide)

end ConcreteWitnessesD

end Sales
